import Mathlib

/-!
Verification development for the money backend deposit core: the late-payment
penalty calculation (`DepositService.calculatePenalty`), the deposit lifecycle
(`createDeposit` / `updateDeposit` / `deleteDeposit`), the admin approval
workflow (`DepositRequestService.approveDepositRequest` / `rejectDepositRequest`),
the member-ledger update (`MemberStats`), and the admin overview aggregation
(`AdminService.getOverview`).

Dates: the services only use a JavaScript `Date` through `setDate`, `setHours`,
`getTime` and comparisons, always within a single month.  A date is therefore
embedded as the epoch instant of 00:00 on day 1 of its month, the 1-based day
of month, and the milliseconds elapsed within that day; `toMs` recovers the
absolute instant.  Days are uniform 86400000 ms (the deployment timezone has no
daylight-saving shifts).

Amounts are naturals (they are non-negative BIGINT columns).  `Math.ceil` of an
exact ratio of naturals is embedded as ceiling division; `Math.floor` as `Nat`
division; `Math.round` as floor of the value plus one half.
-/

namespace Money

/-- Milliseconds in one day, the divisor used by both days-late computations. -/
def dayMs : Nat := 86400000

/-- Embedding of a JavaScript `Date`: epoch ms of 00:00 on day 1 of its month,
1-based day of month, and ms elapsed since 00:00 of that day. -/
structure JsDate where
  monthStart : Int
  day : Nat
  msInDay : Nat
deriving DecidableEq

/-- Absolute instant (`Date.getTime()`) of an embedded date. -/
def JsDate.toMs (d : JsDate) : Int :=
  d.monthStart + ((d.day - 1 : Nat) : Int) * (dayMs : Int) + (d.msInDay : Int)

/-- Embeds `DepositService.PENALTY_START_DAY`: penalty starts from the 16th. -/
def PENALTY_START_DAY : Nat := 16

/-- Embeds `DepositService.PENALTY_RATE`: 30 BDT per 1000 BDT. -/
def PENALTY_RATE : Nat := 30

/-- Ceiling division on naturals: `Math.ceil (a / b)` for exact rational `a / b`. -/
def ceilDiv (a b : Nat) : Nat := (a + b - 1) / b

/-- Instant of `penaltyStartDate` in `calculatePenalty` and in the admin listing:
the deposit month with day-of-month set to `PENALTY_START_DAY` and the
time-of-day zeroed (`setDate(16); setHours(0,0,0,0)`). -/
def penaltyBoundary (depositMonth : JsDate) : Int :=
  depositMonth.monthStart + ((PENALTY_START_DAY - 1 : Nat) : Int) * (dayMs : Int)

/-- Embeds `DepositService.calculatePenalty`: zero when the payment instant is not
strictly after the boundary, else `Math.ceil((depositAmount / 1000) * PENALTY_RATE)`,
which over exact arithmetic is the ceiling of `depositAmount * PENALTY_RATE / 1000`. -/
def calculatePenalty (depositMonth paymentDate : JsDate) (depositAmount : Nat) : Nat :=
  if penaltyBoundary depositMonth < paymentDate.toMs then
    ceilDiv (depositAmount * PENALTY_RATE) 1000
  else
    0

/-- Penalty formula as the spec words it: `ceil(baseAmount / 1000) * ratePerThousand`
after the boundary, else zero.  Written from the spec for comparison with
`calculatePenalty`, which is the code. -/
def specPenalty (depositMonth paymentDate : JsDate) (baseAmount : Nat) : Nat :=
  if penaltyBoundary depositMonth < paymentDate.toMs then
    ceilDiv baseAmount 1000 * PENALTY_RATE
  else
    0

/-- Days-late computed in `DepositRequestService.getAllDepositRequests` (and
`getDepositRequestById`): boundary at 00:00 of day 16, then `Math.floor` of the
millisecond difference divided by one day when the payment is strictly later,
else zero. -/
def adminDaysLate (depositMonth paymentDate : JsDate) : Nat :=
  if penaltyBoundary depositMonth < paymentDate.toMs then
    (paymentDate.toMs - penaltyBoundary depositMonth).toNat / dayMs
  else
    0

/-- Days-late helper `getDaysLate` inside `DepositService.getMemberOverview`:
`setDate(16)` without zeroing the time-of-day (so the boundary keeps the
deposit month's own time), then `Math.ceil` of the difference divided by one
day when the payment is strictly later, else zero. -/
def overviewDaysLate (paymentDate depositMonth : JsDate) : Nat :=
  if penaltyBoundary depositMonth + (depositMonth.msInDay : Int) < paymentDate.toMs then
    ceilDiv (paymentDate.toMs - (penaltyBoundary depositMonth + (depositMonth.msInDay : Int))).toNat dayMs
  else
    0

/-- Days-late formula as the spec words it: `ceil((paymentDate - penaltyStartInstant) / 1 day)`
when strictly after the 00:00-of-day-16 boundary, else zero.  Written from the
spec for comparison with the two code computations. -/
def specDaysLate (depositMonth paymentDate : JsDate) : Nat :=
  if penaltyBoundary depositMonth < paymentDate.toMs then
    ceilDiv (paymentDate.toMs - penaltyBoundary depositMonth).toNat dayMs
  else
    0

theorem ceilDiv_le_mul (n b : Nat) (hb : 0 < b) :
    n ≤ ceilDiv n b * b ∧ ceilDiv n b * b < n + b := by
  have h1 := Nat.div_add_mod' (n + b - 1) b
  have h2 : (n + b - 1) % b < b := Nat.mod_lt _ hb
  unfold ceilDiv
  omega

theorem div_mul_le (n b : Nat) (hb : 0 < b) :
    n / b * b ≤ n ∧ n < n / b * b + b := by
  have h1 := Nat.div_add_mod' n b
  have h2 : n % b < b := Nat.mod_lt _ hb
  omega

/-- Prisma enum `PaymentStatus`. -/
inductive PaymentStatus where
  | PENDING
  | APPROVED
  | REJECTED
  | CANCELLED
deriving DecidableEq

/-- Prisma enum `PaymentMethod`. -/
inductive PaymentMethod where
  | HAND_TO_HAND
  | BKASH
  | NAGAD
  | ROCKET
  | BANK_TRANSFER
deriving DecidableEq

/-- Prisma enum `MemberStatus`. -/
inductive MemberStatus where
  | PENDING
  | ACTIVE
  | SUSPENDED
  | INACTIVE
  | REJECTED
deriving DecidableEq

/-- Row of the `Deposit` table, restricted to the columns the deposit core
reads or writes. -/
structure Deposit where
  id : Nat
  memberId : Nat
  depositMonth : JsDate
  depositAmount : Nat
  penalty : Nat
  totalAmount : Nat
  paymentDate : JsDate
  paymentMethod : PaymentMethod
  referencePerson : Option String
  proofImage : Option String
  notes : Option String
  status : PaymentStatus
  rejectionReason : Option String
  approvedBy : Option Nat
  approvedAt : Option Int
deriving DecidableEq

/-- Row of the `MemberStats` table (the Member Ledger), keyed by `memberId`. -/
structure MemberStats where
  memberId : Nat
  totalDeposited : Nat
  totalPenalties : Nat
  totalContribution : Nat
  totalMonthsPaid : Nat
  consecutiveMonths : Nat
  lastDepositDate : Option JsDate
  lastDepositMonth : Option JsDate
deriving DecidableEq

/-- Row of the `User` table, restricted to the columns the deposit core reads. -/
structure UserRec where
  memberId : Nat
  status : MemberStatus
deriving DecidableEq

/-- Row of the `AuditLog` table; `reason` carries the salient string of the
JSON `newValue` column (the rejection reason for rejections, the admin notes
for approvals). -/
structure AuditEntry where
  action : String
  entityId : Nat
  performedBy : Nat
  reason : Option String
deriving DecidableEq

/-- Payment-method-specific detail row (`HandToHandPayment`, `MobilePayment`
or `BankTransfer`), keyed by the owning deposit. -/
structure PaymentDetail where
  depositId : Nat
  method : PaymentMethod
deriving DecidableEq

/-- Database state touched by the deposit core.  `users` is keyed by the
user id. -/
structure DB where
  users : List (Nat × UserRec)
  deposits : List Deposit
  memberStats : List MemberStats
  auditLogs : List AuditEntry
  paymentDetails : List PaymentDetail
deriving DecidableEq

/-- Errors thrown by the services (`NotFoundException`, `BadRequestException`,
`ForbiddenException`).  A thrown error aborts the request before or inside a
transaction, so no database write persists in an error outcome. -/
inductive ServiceError where
  | notFound (msg : String)
  | badRequest (msg : String)
  | forbidden (msg : String)
deriving DecidableEq

/-- Embeds `prisma.user.findUnique` by user id. -/
def findUser (db : DB) (userId : Nat) : Option UserRec :=
  (db.users.find? (fun p => p.1 == userId)).map Prod.snd

/-- Embeds `prisma.deposit.findUnique` by deposit id. -/
def findDeposit (db : DB) (depositId : Nat) : Option Deposit :=
  db.deposits.find? (fun d => d.id == depositId)

/-- Embeds `prisma.memberStats.findUnique` by member id. -/
def findStats (db : DB) (memberId : Nat) : Option MemberStats :=
  db.memberStats.find? (fun s => s.memberId == memberId)

/-- Payload of `CreateDepositDto`.  The three `has...Details` flags record
whether the corresponding optional detail object was supplied. -/
structure CreateDepositDto where
  depositMonth : JsDate
  paymentDate : Option JsDate
  depositAmount : Nat
  paymentMethod : PaymentMethod
  hasHandToHandDetails : Bool
  hasMobilePaymentDetails : Bool
  hasBankTransferDetails : Bool
  referencePerson : Option String
  proofImage : Option String
  notes : Option String

/-- Payload of `UpdateDepositDto`; every field is optional. -/
structure UpdateDepositDto where
  depositAmount : Option Nat
  paymentDate : Option JsDate
  paymentMethod : Option PaymentMethod
  hasHandToHandDetails : Bool
  hasMobilePaymentDetails : Bool
  hasBankTransferDetails : Bool
  referencePerson : Option String
  proofImage : Option String
  notes : Option String

/-- Embeds `DepositService.validatePaymentMethodDetails`: each method requires its own
detail object. -/
def validatePaymentMethodDetails (pm : PaymentMethod)
    (hasH hasM hasB : Bool) : Except ServiceError Unit :=
  match pm with
  | .HAND_TO_HAND =>
      if hasH then .ok () else
        .error (.badRequest "Hand to hand payment details are required")
  | .BKASH | .NAGAD | .ROCKET =>
      if hasM then .ok () else
        .error (.badRequest "Mobile payment details are required")
  | .BANK_TRANSFER =>
      if hasB then .ok () else
        .error (.badRequest "Bank transfer details are required")

/-- Embeds `DepositService.validateUserStatus`: the user must exist and be ACTIVE. -/
def validateUserStatus (db : DB) (userId : Nat) : Except ServiceError UserRec :=
  match findUser db userId with
  | none => .error (.notFound "User not found")
  | some u =>
      if u.status = MemberStatus.ACTIVE then .ok u
      else .error (.forbidden "Only active members can create deposits.")

/-- Embeds `DepositService.validateDepositOwnership`: the user and the deposit must
exist and the deposit must belong to the user's member id. -/
def validateDepositOwnership (db : DB) (depositId userId : Nat) :
    Except ServiceError Unit :=
  match findUser db userId with
  | none => .error (.notFound "User not found")
  | some u =>
      match findDeposit db depositId with
      | none => .error (.notFound "Deposit not found")
      | some d =>
          if d.memberId = u.memberId then .ok ()
          else .error (.forbidden "You do not have permission to access this deposit")

/-- Deposit row inserted by `createDeposit`: PENDING, with the penalty
computed from the target month, the given-or-current payment date and the base
amount, and the total equal to base plus penalty. -/
def newDepositRow (dto : CreateDepositDto) (u : UserRec) (newId : Nat)
    (now : JsDate) : Deposit :=
  let paymentDate := match dto.paymentDate with
    | some p => p
    | none => now
  let penalty := calculatePenalty dto.depositMonth paymentDate dto.depositAmount
  { id := newId
    memberId := u.memberId
    depositMonth := dto.depositMonth
    depositAmount := dto.depositAmount
    penalty := penalty
    totalAmount := dto.depositAmount + penalty
    paymentDate := paymentDate
    paymentMethod := dto.paymentMethod
    referencePerson := dto.referencePerson
    proofImage := dto.proofImage
    notes := dto.notes
    status := PaymentStatus.PENDING
    rejectionReason := none
    approvedBy := none
    approvedAt := none }

/-- Database state produced by a successful `createDeposit`: the new PENDING
deposit row and its payment-method detail row are inserted. -/
def createResultDb (db : DB) (dto : CreateDepositDto) (u : UserRec)
    (newId : Nat) (now : JsDate) : DB :=
  { db with
    deposits := newDepositRow dto u newId now :: db.deposits
    paymentDetails := ⟨newId, dto.paymentMethod⟩ :: db.paymentDetails }

/-- Embeds `DepositService.createDeposit`.  `newId` stands for the id the database
generates for the new row and `now` for `new Date()` used when the dto omits
the payment date.  The code validates the user, rejects a duplicate
(member, depositMonth) pair, computes penalty and total, validates the
method details, then inserts the PENDING deposit and its detail row. -/
def createDeposit (db : DB) (dto : CreateDepositDto) (userId newId : Nat)
    (now : JsDate) : Except ServiceError DB :=
  match validateUserStatus db userId with
  | .error e => .error e
  | .ok _ =>
    match findUser db userId with
    | none => .error (.notFound "User not found")
    | some u =>
      if db.deposits.any (fun d =>
          d.memberId == u.memberId && d.depositMonth.toMs == dto.depositMonth.toMs) then
        .error (.badRequest "A deposit for this month already exists")
      else
        match validatePaymentMethodDetails dto.paymentMethod
            dto.hasHandToHandDetails dto.hasMobilePaymentDetails
            dto.hasBankTransferDetails with
        | .error e => .error e
        | .ok _ => .ok (createResultDb db dto u newId now)

/-- Field updates of `DepositService.updateDeposit` applied to the existing
row: the first block fires when a new amount is given (penalty recomputed with
the new amount and the given-or-existing payment date), the second when a new
payment date is given (penalty recomputed with the given-or-existing amount),
then method, reference person, proof image and notes. -/
def applyDepositUpdate (existing : Deposit) (dto : UpdateDepositDto) : Deposit :=
  let d1 := match dto.depositAmount with
    | some a =>
        let pd := match dto.paymentDate with
          | some p => p
          | none => existing.paymentDate
        let pen := calculatePenalty existing.depositMonth pd a
        { existing with depositAmount := a, penalty := pen, totalAmount := a + pen }
    | none => existing
  let d2 := match dto.paymentDate with
    | some pd =>
        let amt := match dto.depositAmount with
          | some a => a
          | none => existing.depositAmount
        let pen := calculatePenalty existing.depositMonth pd amt
        { d1 with paymentDate := pd, penalty := pen, totalAmount := amt + pen }
    | none => d1
  let d3 := match dto.paymentMethod with
    | some pm => { d2 with paymentMethod := pm }
    | none => d2
  let d4 := match dto.referencePerson with
    | some r => { d3 with referencePerson := some r }
    | none => d3
  let d5 := match dto.proofImage with
    | some p => { d4 with proofImage := some p }
    | none => d4
  match dto.notes with
  | some n => { d5 with notes := some n }
  | none => d5

/-- Embeds `DepositService.updateDeposit`: ownership check, PENDING-only guard, user
status check, then the field updates and the detail-row replacement when the
payment method changed. -/
def updateDeposit (db : DB) (depositId : Nat) (dto : UpdateDepositDto)
    (userId : Nat) : Except ServiceError DB :=
  match validateDepositOwnership db depositId userId with
  | .error e => .error e
  | .ok _ =>
    match findDeposit db depositId with
    | none => .error (.notFound "Deposit not found")
    | some existing =>
      if existing.status ≠ PaymentStatus.PENDING then
        .error (.badRequest "Cannot update this deposit. Only PENDING deposits can be updated.")
      else
        match validateUserStatus db userId with
        | .error e => .error e
        | .ok _ =>
          match (match dto.paymentMethod with
                 | some pm => validatePaymentMethodDetails pm
                     dto.hasHandToHandDetails dto.hasMobilePaymentDetails
                     dto.hasBankTransferDetails
                 | none => .ok ()) with
          | .error e => .error e
          | .ok _ =>
            let updated := applyDepositUpdate existing dto
            let methodChanged : Bool := match dto.paymentMethod with
              | some pm => decide (pm ≠ existing.paymentMethod)
              | none => false
            .ok { db with
                  deposits := db.deposits.map
                    (fun d => if d.id == depositId then updated else d)
                  paymentDetails :=
                    if methodChanged then
                      ⟨depositId, updated.paymentMethod⟩ ::
                        db.paymentDetails.filter (fun p => p.depositId != depositId)
                    else db.paymentDetails }

/-- Embeds `DepositService.deleteDeposit`: ownership check, PENDING-only guard, then
delete the row (cascade removes the detail rows). -/
def deleteDeposit (db : DB) (depositId userId : Nat) : Except ServiceError DB :=
  match validateDepositOwnership db depositId userId with
  | .error e => .error e
  | .ok _ =>
    match findDeposit db depositId with
    | none => .error (.notFound "Deposit not found")
    | some deposit =>
      if deposit.status ≠ PaymentStatus.PENDING then
        .error (.badRequest "Cannot delete this deposit. Only PENDING deposits can be deleted.")
      else
        .ok { db with
              deposits := db.deposits.filter (fun d => d.id != depositId)
              paymentDetails := db.paymentDetails.filter (fun p => p.depositId != depositId) }

/-- Ledger increments applied by an approval to an existing `MemberStats` row. -/
def approvedStats (s : MemberStats) (d : Deposit) : MemberStats :=
  { s with
    totalDeposited := s.totalDeposited + d.depositAmount
    totalPenalties := s.totalPenalties + d.penalty
    totalContribution := s.totalContribution + d.totalAmount
    totalMonthsPaid := s.totalMonthsPaid + 1
    consecutiveMonths := s.consecutiveMonths + 1
    lastDepositDate := some d.paymentDate
    lastDepositMonth := some d.depositMonth }

/-- Ledger `MemberStats` row created by an approval when the member has none yet. -/
def seededStats (d : Deposit) : MemberStats :=
  { memberId := d.memberId
    totalDeposited := d.depositAmount
    totalPenalties := d.penalty
    totalContribution := d.totalAmount
    totalMonthsPaid := 1
    consecutiveMonths := 1
    lastDepositDate := some d.paymentDate
    lastDepositMonth := some d.depositMonth }

/-- Deposit row as rewritten by `approveDepositRequest`: status APPROVED,
approver and timestamp stamped, dto notes falling back to the existing ones
(`dto.notes || depositRecord.notes`). -/
def approvedDeposit (d : Deposit) (adminMemberId : Nat) (now : Int)
    (dtoNotes : Option String) : Deposit :=
  { d with
    status := PaymentStatus.APPROVED
    approvedBy := some adminMemberId
    approvedAt := some now
    notes := match dtoNotes with
      | some n => some n
      | none => d.notes }

/-- Database state produced by a successful approval of deposit `d` (already
looked up): the deposit row is rewritten, the member's `MemberStats` row is
incremented, or created seeded when absent, and a `DEPOSIT_APPROVED` audit
entry is appended. -/
def approveResultDb (db : DB) (depositId adminMemberId : Nat)
    (dtoNotes : Option String) (now : Int) (d : Deposit) : DB :=
  { db with
    deposits := db.deposits.map
      (fun x => if x.id == depositId then approvedDeposit d adminMemberId now dtoNotes else x)
    memberStats := match findStats db d.memberId with
      | some _ => db.memberStats.map
          (fun s => if s.memberId == d.memberId then approvedStats s d else s)
      | none => seededStats d :: db.memberStats
    auditLogs := ⟨"DEPOSIT_APPROVED", depositId, adminMemberId, dtoNotes⟩ :: db.auditLogs }

/-- Embeds `DepositRequestService.approveDepositRequest`: guard against APPROVED and
REJECTED, then in one transaction mark the deposit APPROVED (stamping approver
and timestamp, with the dto notes falling back to the existing ones), update or
create the member's `MemberStats` row, and append a `DEPOSIT_APPROVED` audit
entry. -/
def approveDepositRequest (db : DB) (depositId adminMemberId : Nat)
    (dtoNotes : Option String) (now : Int) : Except ServiceError DB :=
  match findDeposit db depositId with
  | none => .error (.notFound "Deposit request not found")
  | some depositRecord =>
    if depositRecord.status = PaymentStatus.APPROVED then
      .error (.badRequest "Deposit is already approved")
    else if depositRecord.status = PaymentStatus.REJECTED then
      .error (.badRequest "Cannot approve a rejected deposit. Please create a new deposit request.")
    else
      .ok (approveResultDb db depositId adminMemberId dtoNotes now depositRecord)

/-- Database state produced by a successful rejection of deposit `d` (already
looked up): the deposit row becomes REJECTED carrying the reason and a
`DEPOSIT_REJECTED` audit entry carrying the reason is appended; the member
ledger is not touched. -/
def rejectResultDb (db : DB) (depositId : Nat) (rejectionReason : String)
    (adminMemberId : Nat) (d : Deposit) : DB :=
  { db with
    deposits := db.deposits.map
      (fun x => if x.id == depositId then
        { d with status := PaymentStatus.REJECTED, rejectionReason := some rejectionReason }
        else x)
    auditLogs := ⟨"DEPOSIT_REJECTED", depositId, adminMemberId, some rejectionReason⟩ :: db.auditLogs }

/-- Embeds `DepositRequestService.rejectDepositRequest`: guard against REJECTED and
APPROVED, then mark the deposit REJECTED with the supplied reason and append a
`DEPOSIT_REJECTED` audit entry carrying the reason. -/
def rejectDepositRequest (db : DB) (depositId : Nat) (rejectionReason : String)
    (adminMemberId : Nat) : Except ServiceError DB :=
  match findDeposit db depositId with
  | none => .error (.notFound "Deposit request not found")
  | some depositRecord =>
    if depositRecord.status = PaymentStatus.REJECTED then
      .error (.badRequest "Deposit is already rejected")
    else if depositRecord.status = PaymentStatus.APPROVED then
      .error (.badRequest "Cannot reject an approved deposit. Please handle this through other means.")
    else
      .ok (rejectResultDb db depositId rejectionReason adminMemberId depositRecord)

/-- Embeds `AdminService.getCurrentMonthStats`: sum of `totalAmount` over APPROVED
deposits whose `depositMonth` lies between the start and the end instants of
the current calendar month. -/
def getCurrentMonthStats (deposits : List Deposit) (start finish : Int) : Nat :=
  ((deposits.filter (fun d =>
      decide (d.status = PaymentStatus.APPROVED ∧
        start ≤ d.depositMonth.toMs ∧ d.depositMonth.toMs ≤ finish))).map
    Deposit.totalAmount).sum

/-- Current-month collection target in `AdminService.getOverview`:
active members times the configured minimum deposit. -/
def currentMonthTarget (activeMembers minimumDeposit : Nat) : Nat :=
  activeMembers * minimumDeposit

/-- Embeds `Math.round((collected / target) * 100)` for naturals: floor of
`100 * collected / target + 1/2`, i.e. `(200 * collected + target) / (2 * target)`. -/
def roundEfficiency (collected target : Nat) : Nat :=
  (200 * collected + target) / (2 * target)

/-- Collection efficiency in `AdminService.getOverview`: the rounded percentage
when the target is positive, else zero. -/
def collectionEfficiency (collected target : Nat) : Nat :=
  if 0 < target then roundEfficiency collected target else 0

/-- Every deposit row records a total equal to base amount plus penalty. -/
def depositsOk (db : DB) : Prop :=
  ∀ d ∈ db.deposits, d.totalAmount = d.depositAmount + d.penalty

/-- Every ledger row records a contribution equal to deposited plus penalties. -/
def ledgerOk (db : DB) : Prop :=
  ∀ s ∈ db.memberStats, s.totalContribution = s.totalDeposited + s.totalPenalties

theorem find?_map_update {α : Type} (l : List α) (key : α → Nat) (i : Nat)
    (f : α → α) (hf : ∀ a, key a = i → key (f a) = i) :
    (l.map fun a => if key a == i then f a else a).find? (fun a => key a == i) =
      (l.find? (fun a => key a == i)).map f := by
  induction l with
  | nil => rfl
  | cons a l ih =>
    by_cases h : key a = i
    · have hb : (key a == i) = true := by simp [h]
      have hb2 : (key (f a) == i) = true := by simp [hf a h]
      simp [List.find?, hb, hb2]
    · have hb : (key a == i) = false := by simp [h]
      simpa [List.find?, hb] using ih

/-- C1 as frozen is false on the code: for base amount 1500 paid on January 20
(month start taken as instant 0) the code penalty is
`ceil(1500 * 30 / 1000) = 45`, while the claim's formula
`ceil(1500 / 1000) * 30` gives 60. -/
theorem penalty_scenario2_counterexample :
    calculatePenalty ⟨0, 1, 0⟩ ⟨0, 20, 0⟩ 1500 = 45 ∧
    specPenalty ⟨0, 1, 0⟩ ⟨0, 20, 0⟩ 1500 = 60 ∧
    calculatePenalty ⟨0, 1, 0⟩ ⟨0, 20, 0⟩ 1500 ≠
      specPenalty ⟨0, 1, 0⟩ ⟨0, 20, 0⟩ 1500 := by
  decide

/-- C1 amended: the penalty is a pure function of target month, payment date
and base amount; it is 0 when the payment instant is on or before 00:00 of day
16 of the target month, and when strictly after it is the ceiling of
`baseAmount * 30 / 1000` (characterized by the two inequalities); in
particular for base amount 1500 paid on January 20 the penalty is 45 and the
total is 1545. -/
theorem calculatePenalty_boundary_and_rate (m p : JsDate) (a : Nat) :
    (p.toMs ≤ penaltyBoundary m → calculatePenalty m p a = 0) ∧
    (penaltyBoundary m < p.toMs →
      a * PENALTY_RATE ≤ calculatePenalty m p a * 1000 ∧
      calculatePenalty m p a * 1000 < a * PENALTY_RATE + 1000) ∧
    calculatePenalty ⟨0, 1, 0⟩ ⟨0, 20, 0⟩ 1500 = 45 ∧
    1500 + calculatePenalty ⟨0, 1, 0⟩ ⟨0, 20, 0⟩ 1500 = 1545 := by
  refine ⟨?_, ?_, by decide, by decide⟩
  · intro h
    unfold calculatePenalty
    rw [if_neg (by omega)]
  · intro h
    unfold calculatePenalty
    rw [if_pos h]
    exact ceilDiv_le_mul (a * PENALTY_RATE) 1000 (by norm_num)

theorem calculatePenalty_boundary_and_rate_witness :
    penaltyBoundary ⟨0, 1, 0⟩ < JsDate.toMs ⟨0, 20, 0⟩ ∧
    (1500 * PENALTY_RATE ≤ calculatePenalty ⟨0, 1, 0⟩ ⟨0, 20, 0⟩ 1500 * 1000 ∧
     calculatePenalty ⟨0, 1, 0⟩ ⟨0, 20, 0⟩ 1500 * 1000 < 1500 * PENALTY_RATE + 1000) :=
  ⟨by decide,
   (calculatePenalty_boundary_and_rate ⟨0, 1, 0⟩ ⟨0, 20, 0⟩ 1500).2.1 (by decide)⟩

/-- C8 as frozen is false on the code: the admin deposit-request listing uses
`Math.floor`, not the claimed ceiling.  For a payment 1.5 days after the
boundary the listing reports 1 day late while the claimed formula gives 2. -/
theorem daysLate_floor_counterexample :
    adminDaysLate ⟨0, 1, 0⟩ ⟨0, 17, 43200000⟩ = 1 ∧
    specDaysLate ⟨0, 1, 0⟩ ⟨0, 17, 43200000⟩ = 2 ∧
    adminDaysLate ⟨0, 1, 0⟩ ⟨0, 17, 43200000⟩ ≠
      specDaysLate ⟨0, 1, 0⟩ ⟨0, 17, 43200000⟩ := by
  decide

/-- C8 amended: when the payment instant is strictly after 00:00 of day 16 of
the target month, the admin deposit-request listing reports
`floor((paymentDate - penaltyStartInstant) / 1 day)` (not the ceiling), else 0;
the member overview reports `ceil((paymentDate - penaltyStart) / 1 day)` where
its `penaltyStart` is day 16 of the target month keeping the deposit month's
own time-of-day (it is not zeroed there), else 0.  Floor and ceiling are
characterized by the bracketing inequalities. -/
theorem daysLate_code_characterization (m p : JsDate) :
    (p.toMs ≤ penaltyBoundary m → adminDaysLate m p = 0) ∧
    (penaltyBoundary m < p.toMs →
      (adminDaysLate m p : Int) * (dayMs : Int) ≤ p.toMs - penaltyBoundary m ∧
      p.toMs - penaltyBoundary m < (adminDaysLate m p : Int) * (dayMs : Int) + (dayMs : Int)) ∧
    (p.toMs ≤ penaltyBoundary m + (m.msInDay : Int) → overviewDaysLate p m = 0) ∧
    (penaltyBoundary m + (m.msInDay : Int) < p.toMs →
      p.toMs - (penaltyBoundary m + (m.msInDay : Int)) ≤ (overviewDaysLate p m : Int) * (dayMs : Int) ∧
      (overviewDaysLate p m : Int) * (dayMs : Int) <
        p.toMs - (penaltyBoundary m + (m.msInDay : Int)) + (dayMs : Int)) := by
  refine ⟨?_, ?_, ?_, ?_⟩
  · intro h
    unfold adminDaysLate
    rw [if_neg (by omega)]
  · intro h
    unfold adminDaysLate
    rw [if_pos h]
    simp only [dayMs]
    omega
  · intro h
    unfold overviewDaysLate
    rw [if_neg (by omega)]
  · intro h
    unfold overviewDaysLate ceilDiv
    rw [if_pos h]
    simp only [dayMs]
    omega

theorem daysLate_code_characterization_witness :
    penaltyBoundary ⟨0, 1, 0⟩ < JsDate.toMs ⟨0, 17, 43200000⟩ ∧
    ((adminDaysLate ⟨0, 1, 0⟩ ⟨0, 17, 43200000⟩ : Int) * (dayMs : Int) ≤
        JsDate.toMs ⟨0, 17, 43200000⟩ - penaltyBoundary ⟨0, 1, 0⟩ ∧
      JsDate.toMs ⟨0, 17, 43200000⟩ - penaltyBoundary ⟨0, 1, 0⟩ <
        (adminDaysLate ⟨0, 1, 0⟩ ⟨0, 17, 43200000⟩ : Int) * (dayMs : Int) + (dayMs : Int)) :=
  ⟨by decide,
   (daysLate_code_characterization ⟨0, 1, 0⟩ ⟨0, 17, 43200000⟩).2.1 (by decide)⟩

/-- C9: the admin overview collection efficiency is 0 when the current-month
target (active members times minimum deposit) is 0, and otherwise is the
half-up rounding of `collected / target * 100` (characterized by the
bracketing inequalities for `floor(100 * collected / target + 1/2)`), where
collected sums `totalAmount` over APPROVED deposits whose month lies in the
current calendar month window. -/
theorem collectionEfficiency_spec (deposits : List Deposit)
    (active minDep : Nat) (start finish : Int) :
    (currentMonthTarget active minDep = 0 →
      collectionEfficiency (getCurrentMonthStats deposits start finish)
        (currentMonthTarget active minDep) = 0) ∧
    (0 < currentMonthTarget active minDep →
      collectionEfficiency (getCurrentMonthStats deposits start finish)
          (currentMonthTarget active minDep) * (2 * currentMonthTarget active minDep) ≤
        200 * getCurrentMonthStats deposits start finish + currentMonthTarget active minDep ∧
      200 * getCurrentMonthStats deposits start finish + currentMonthTarget active minDep <
        collectionEfficiency (getCurrentMonthStats deposits start finish)
            (currentMonthTarget active minDep) * (2 * currentMonthTarget active minDep) +
          2 * currentMonthTarget active minDep) ∧
    currentMonthTarget active minDep = active * minDep ∧
    getCurrentMonthStats deposits start finish =
      ((deposits.filter (fun d =>
          decide (d.status = PaymentStatus.APPROVED ∧
            start ≤ d.depositMonth.toMs ∧ d.depositMonth.toMs ≤ finish))).map
        Deposit.totalAmount).sum := by
  refine ⟨?_, ?_, rfl, rfl⟩
  · intro h
    unfold collectionEfficiency
    rw [if_neg (by omega)]
  · intro h
    unfold collectionEfficiency roundEfficiency
    rw [if_pos h]
    have h1 := Nat.div_add_mod'
      (200 * getCurrentMonthStats deposits start finish + currentMonthTarget active minDep)
      (2 * currentMonthTarget active minDep)
    have h2 : (200 * getCurrentMonthStats deposits start finish +
        currentMonthTarget active minDep) % (2 * currentMonthTarget active minDep) <
        2 * currentMonthTarget active minDep := Nat.mod_lt _ (by omega)
    omega

theorem collectionEfficiency_spec_witness :
    0 < currentMonthTarget 2 1000 ∧
    (collectionEfficiency
        (getCurrentMonthStats
          [{ id := 1, memberId := 7, depositMonth := ⟨0, 1, 0⟩, depositAmount := 1500,
             penalty := 0, totalAmount := 1500, paymentDate := ⟨0, 10, 0⟩,
             paymentMethod := .BKASH, referencePerson := none, proofImage := none,
             notes := none, status := .APPROVED, rejectionReason := none,
             approvedBy := none, approvedAt := none }] 0 2678400000)
        (currentMonthTarget 2 1000) * (2 * currentMonthTarget 2 1000) ≤
      200 * getCurrentMonthStats
          [{ id := 1, memberId := 7, depositMonth := ⟨0, 1, 0⟩, depositAmount := 1500,
             penalty := 0, totalAmount := 1500, paymentDate := ⟨0, 10, 0⟩,
             paymentMethod := .BKASH, referencePerson := none, proofImage := none,
             notes := none, status := .APPROVED, rejectionReason := none,
             approvedBy := none, approvedAt := none }] 0 2678400000 +
        currentMonthTarget 2 1000 ∧
      200 * getCurrentMonthStats
          [{ id := 1, memberId := 7, depositMonth := ⟨0, 1, 0⟩, depositAmount := 1500,
             penalty := 0, totalAmount := 1500, paymentDate := ⟨0, 10, 0⟩,
             paymentMethod := .BKASH, referencePerson := none, proofImage := none,
             notes := none, status := .APPROVED, rejectionReason := none,
             approvedBy := none, approvedAt := none }] 0 2678400000 +
        currentMonthTarget 2 1000 <
        collectionEfficiency
            (getCurrentMonthStats
              [{ id := 1, memberId := 7, depositMonth := ⟨0, 1, 0⟩, depositAmount := 1500,
                 penalty := 0, totalAmount := 1500, paymentDate := ⟨0, 10, 0⟩,
                 paymentMethod := .BKASH, referencePerson := none, proofImage := none,
                 notes := none, status := .APPROVED, rejectionReason := none,
                 approvedBy := none, approvedAt := none }] 0 2678400000)
            (currentMonthTarget 2 1000) * (2 * currentMonthTarget 2 1000) +
          2 * currentMonthTarget 2 1000) :=
  ⟨by decide,
   (collectionEfficiency_spec
      [{ id := 1, memberId := 7, depositMonth := ⟨0, 1, 0⟩, depositAmount := 1500,
         penalty := 0, totalAmount := 1500, paymentDate := ⟨0, 10, 0⟩,
         paymentMethod := .BKASH, referencePerson := none, proofImage := none,
         notes := none, status := .APPROVED, rejectionReason := none,
         approvedBy := none, approvedAt := none }] 2 1000 0 2678400000).2.1 (by decide)⟩

/-- Sample month (instant 0 taken as 00:00 on day 1 of the target month). -/
def sampleMonth : JsDate := ⟨0, 1, 0⟩

/-- Sample payment date: day 10 of the sample month. -/
def samplePay : JsDate := ⟨0, 10, 0⟩

/-- Sample PENDING deposit of base 1000 and penalty 0 for member 7. -/
def sampleDeposit : Deposit :=
  { id := 1, memberId := 7, depositMonth := sampleMonth, depositAmount := 1000,
    penalty := 0, totalAmount := 1000, paymentDate := samplePay,
    paymentMethod := .BKASH, referencePerson := none, proofImage := none,
    notes := none, status := .PENDING, rejectionReason := none,
    approvedBy := none, approvedAt := none }

/-- Sample database: user 5 is the ACTIVE member 7 owning the sample deposit;
no ledger row exists yet. -/
def sampleDb : DB :=
  { users := [(5, ⟨7, .ACTIVE⟩)], deposits := [sampleDeposit],
    memberStats := [], auditLogs := [], paymentDetails := [] }

/-- C2: approving a PENDING deposit succeeds exactly once; the approved row
keeps its amounts, the member ledger row is incremented by exactly the
deposit's base, penalty and total, months counters by exactly 1, and the last
deposit date and month are stamped; when no ledger row exists one is created
seeded with exactly these values; a second approve attempt on the same deposit
fails (so the ledger is not incremented a second time, the error aborting
before any write). -/
theorem approveDepositRequest_pending_once
    (db : DB) (i adm : Nat) (nts nts2 : Option String) (now now2 : Int)
    (d : Deposit) (hd : findDeposit db i = some d)
    (hp : d.status = PaymentStatus.PENDING) :
    ∃ db', approveDepositRequest db i adm nts now = .ok db' ∧
      (∃ d', findDeposit db' i = some d' ∧ d'.status = PaymentStatus.APPROVED ∧
        d'.approvedBy = some adm ∧ d'.depositAmount = d.depositAmount ∧
        d'.penalty = d.penalty ∧ d'.totalAmount = d.totalAmount) ∧
      (∀ s, findStats db d.memberId = some s →
        ∃ s', findStats db' d.memberId = some s' ∧
          s'.totalDeposited = s.totalDeposited + d.depositAmount ∧
          s'.totalPenalties = s.totalPenalties + d.penalty ∧
          s'.totalContribution = s.totalContribution + d.totalAmount ∧
          s'.totalMonthsPaid = s.totalMonthsPaid + 1 ∧
          s'.consecutiveMonths = s.consecutiveMonths + 1 ∧
          s'.lastDepositDate = some d.paymentDate ∧
          s'.lastDepositMonth = some d.depositMonth) ∧
      (findStats db d.memberId = none →
        ∃ s', findStats db' d.memberId = some s' ∧
          s'.totalDeposited = d.depositAmount ∧
          s'.totalPenalties = d.penalty ∧
          s'.totalContribution = d.totalAmount ∧
          s'.totalMonthsPaid = 1 ∧
          s'.consecutiveMonths = 1 ∧
          s'.lastDepositDate = some d.paymentDate ∧
          s'.lastDepositMonth = some d.depositMonth) ∧
      approveDepositRequest db' i adm nts2 now2 =
        .error (.badRequest "Deposit is already approved") := by
  have hdi : d.id = i := by simpa using List.find?_some hd
  have h1 : ¬d.status = PaymentStatus.APPROVED := by simp [hp]
  have h2 : ¬d.status = PaymentStatus.REJECTED := by simp [hp]
  have hok : approveDepositRequest db i adm nts now =
      .ok (approveResultDb db i adm nts now d) := by
    simp only [approveDepositRequest, hd, if_neg h1, if_neg h2]
  have hfd : findDeposit (approveResultDb db i adm nts now d) i =
      some (approvedDeposit d adm now nts) := by
    show List.find? _ (List.map _ db.deposits) = _
    rw [find?_map_update db.deposits Deposit.id i
      (fun _ => approvedDeposit d adm now nts) (fun _ _ => hdi)]
    have hdf : db.deposits.find? (fun x => x.id == i) = some d := hd
    rw [hdf, Option.map_some']
  refine ⟨approveResultDb db i adm nts now d, hok, ?_, ?_, ?_, ?_⟩
  · exact ⟨approvedDeposit d adm now nts, hfd, rfl, rfl, rfl, rfl, rfl⟩
  · intro s hfs
    refine ⟨approvedStats s d, ?_, rfl, rfl, rfl, rfl, rfl, rfl, rfl⟩
    show List.find? _ _ = _
    have hms : (approveResultDb db i adm nts now d).memberStats =
        db.memberStats.map
          (fun s2 => if s2.memberId == d.memberId then approvedStats s2 d else s2) := by
      simp only [approveResultDb, hfs]
    rw [hms, find?_map_update db.memberStats MemberStats.memberId d.memberId
      (fun s2 => approvedStats s2 d) (fun _ h => h)]
    have hsf : db.memberStats.find? (fun s2 => s2.memberId == d.memberId) = some s := hfs
    rw [hsf, Option.map_some']
  · intro hfs
    refine ⟨seededStats d, ?_, rfl, rfl, rfl, rfl, rfl, rfl, rfl⟩
    show List.find? _ _ = _
    have hms : (approveResultDb db i adm nts now d).memberStats =
        seededStats d :: db.memberStats := by
      simp only [approveResultDb, hfs]
    rw [hms]
    simp [List.find?, seededStats]
  · simp only [approveDepositRequest, hfd]
    rw [if_pos (show (approvedDeposit d adm now nts).status = PaymentStatus.APPROVED from rfl)]

theorem approveDepositRequest_pending_once_witness :
    findDeposit sampleDb 1 = some sampleDeposit ∧
    sampleDeposit.status = PaymentStatus.PENDING ∧
    ∃ db', approveDepositRequest sampleDb 1 2 none 0 = .ok db' :=
  ⟨rfl, rfl,
   (approveDepositRequest_pending_once sampleDb 1 2 none none 0 0 sampleDeposit
      rfl rfl).elim (fun db' hh => ⟨db', hh.1⟩)⟩

/-- C3: rejecting a PENDING deposit succeeds, sets the status to REJECTED,
stores the supplied rejection reason on the deposit, appends a
`DEPOSIT_REJECTED` audit entry carrying the reason, and leaves the member
ledger (every `MemberStats` row) unchanged. -/
theorem rejectDepositRequest_frame (db : DB) (i adm : Nat) (r : String)
    (d : Deposit) (hd : findDeposit db i = some d)
    (hp : d.status = PaymentStatus.PENDING) :
    ∃ db', rejectDepositRequest db i r adm = .ok db' ∧
      (∃ d', findDeposit db' i = some d' ∧ d'.status = PaymentStatus.REJECTED ∧
        d'.rejectionReason = some r) ∧
      db'.memberStats = db.memberStats ∧
      db'.auditLogs = ⟨"DEPOSIT_REJECTED", i, adm, some r⟩ :: db.auditLogs := by
  have hdi : d.id = i := by simpa using List.find?_some hd
  have h1 : ¬d.status = PaymentStatus.REJECTED := by simp [hp]
  have h2 : ¬d.status = PaymentStatus.APPROVED := by simp [hp]
  have hok : rejectDepositRequest db i r adm = .ok (rejectResultDb db i r adm d) := by
    simp only [rejectDepositRequest, hd, if_neg h1, if_neg h2]
  refine ⟨rejectResultDb db i r adm d, hok, ?_, rfl, rfl⟩
  refine ⟨{ d with status := PaymentStatus.REJECTED, rejectionReason := some r },
    ?_, rfl, rfl⟩
  show List.find? _ (List.map _ db.deposits) = _
  rw [find?_map_update db.deposits Deposit.id i
    (fun _ => { d with status := PaymentStatus.REJECTED, rejectionReason := some r })
    (fun _ _ => hdi)]
  have hdf : db.deposits.find? (fun x => x.id == i) = some d := hd
  rw [hdf, Option.map_some']

theorem rejectDepositRequest_frame_witness :
    findDeposit sampleDb 1 = some sampleDeposit ∧
    sampleDeposit.status = PaymentStatus.PENDING ∧
    ∃ db', rejectDepositRequest sampleDb 1 "proof unclear" 2 = .ok db' :=
  ⟨rfl, rfl,
   (rejectDepositRequest_frame sampleDb 1 2 "proof unclear" sampleDeposit
      rfl rfl).elim (fun db' hh => ⟨db', hh.1⟩)⟩

/-- Sample deposit in APPROVED state, with its database. -/
def sampleApproved : Deposit := { sampleDeposit with status := .APPROVED }

/-- Database holding the approved sample deposit. -/
def sampleDbApproved : DB := { sampleDb with deposits := [sampleApproved] }

/-- Sample deposit in REJECTED state, with its database. -/
def sampleRejected : Deposit := { sampleDeposit with status := .REJECTED }

/-- Database holding the rejected sample deposit. -/
def sampleDbRejected : DB := { sampleDb with deposits := [sampleRejected] }

/-- C5: APPROVED and REJECTED are terminal.  Approving an APPROVED deposit
fails with the already-approved error; rejecting an APPROVED deposit fails
with the cannot-reject-approved error; rejecting a REJECTED deposit fails with
the already-rejected error; approving a REJECTED deposit fails with the
cannot-approve-rejected error.  Every failure is thrown before any write, so
the deposit and the ledger are unchanged. -/
theorem approve_reject_terminal (db : DB) (i adm : Nat) (nts : Option String)
    (now : Int) (r : String) (d : Deposit) (hd : findDeposit db i = some d) :
    (d.status = PaymentStatus.APPROVED →
      approveDepositRequest db i adm nts now =
        .error (.badRequest "Deposit is already approved") ∧
      rejectDepositRequest db i r adm =
        .error (.badRequest "Cannot reject an approved deposit. Please handle this through other means.")) ∧
    (d.status = PaymentStatus.REJECTED →
      rejectDepositRequest db i r adm =
        .error (.badRequest "Deposit is already rejected") ∧
      approveDepositRequest db i adm nts now =
        .error (.badRequest "Cannot approve a rejected deposit. Please create a new deposit request.")) := by
  constructor <;> intro h
  · constructor
    · simp only [approveDepositRequest, hd]
      rw [if_pos h]
    · simp only [rejectDepositRequest, hd]
      rw [if_neg (by simp [h]), if_pos h]
  · constructor
    · simp only [rejectDepositRequest, hd]
      rw [if_pos h]
    · simp only [approveDepositRequest, hd]
      rw [if_neg (by simp [h]), if_pos h]

theorem approve_reject_terminal_witness :
    findDeposit sampleDbApproved 1 = some sampleApproved ∧
    sampleApproved.status = PaymentStatus.APPROVED ∧
    approveDepositRequest sampleDbApproved 1 2 none 0 =
      .error (.badRequest "Deposit is already approved") :=
  ⟨rfl, rfl,
   ((approve_reject_terminal sampleDbApproved 1 2 none 0 "reason" sampleApproved
      rfl).1 rfl).1⟩

/-- Sample deposit in CANCELLED state, with its database. -/
def sampleCancelled : Deposit := { sampleDeposit with status := .CANCELLED }

/-- Database holding the cancelled sample deposit. -/
def sampleDbCancelled : DB := { sampleDb with deposits := [sampleCancelled] }

/-- C10: the approve and reject guards only exclude APPROVED and REJECTED, not
non-PENDING statuses in general.  A CANCELLED deposit can be approved — the
status becomes APPROVED and the full ledger increments are applied (existing
row incremented, absent row seeded) — and can likewise be rejected, even
though it was never PENDING at the time of the transition. -/
theorem cancelled_approve_reject (db : DB) (i adm : Nat) (nts : Option String)
    (now : Int) (r : String) (d : Deposit)
    (hd : findDeposit db i = some d) (hc : d.status = PaymentStatus.CANCELLED) :
    (∃ db', approveDepositRequest db i adm nts now = .ok db' ∧
      (∃ d', findDeposit db' i = some d' ∧ d'.status = PaymentStatus.APPROVED) ∧
      (∀ s, findStats db d.memberId = some s →
        ∃ s', findStats db' d.memberId = some s' ∧
          s'.totalDeposited = s.totalDeposited + d.depositAmount ∧
          s'.totalPenalties = s.totalPenalties + d.penalty ∧
          s'.totalContribution = s.totalContribution + d.totalAmount ∧
          s'.totalMonthsPaid = s.totalMonthsPaid + 1 ∧
          s'.consecutiveMonths = s.consecutiveMonths + 1) ∧
      (findStats db d.memberId = none →
        ∃ s', findStats db' d.memberId = some s' ∧
          s'.totalDeposited = d.depositAmount ∧
          s'.totalMonthsPaid = 1 ∧ s'.consecutiveMonths = 1)) ∧
    (∃ db'', rejectDepositRequest db i r adm = .ok db'' ∧
      ∃ d'', findDeposit db'' i = some d'' ∧
        d''.status = PaymentStatus.REJECTED) := by
  have hdi : d.id = i := by simpa using List.find?_some hd
  have hdf : db.deposits.find? (fun x => x.id == i) = some d := hd
  constructor
  · have h1 : ¬d.status = PaymentStatus.APPROVED := by simp [hc]
    have h2 : ¬d.status = PaymentStatus.REJECTED := by simp [hc]
    have hok : approveDepositRequest db i adm nts now =
        .ok (approveResultDb db i adm nts now d) := by
      simp only [approveDepositRequest, hd, if_neg h1, if_neg h2]
    have hfd : findDeposit (approveResultDb db i adm nts now d) i =
        some (approvedDeposit d adm now nts) := by
      show List.find? _ (List.map _ db.deposits) = _
      rw [find?_map_update db.deposits Deposit.id i
        (fun _ => approvedDeposit d adm now nts) (fun _ _ => hdi), hdf,
        Option.map_some']
    refine ⟨approveResultDb db i adm nts now d, hok,
      ⟨approvedDeposit d adm now nts, hfd, rfl⟩, ?_, ?_⟩
    · intro s hfs
      refine ⟨approvedStats s d, ?_, rfl, rfl, rfl, rfl, rfl⟩
      show List.find? _ _ = _
      have hms : (approveResultDb db i adm nts now d).memberStats =
          db.memberStats.map
            (fun s2 => if s2.memberId == d.memberId then approvedStats s2 d else s2) := by
        simp only [approveResultDb, hfs]
      rw [hms, find?_map_update db.memberStats MemberStats.memberId d.memberId
        (fun s2 => approvedStats s2 d) (fun _ h => h)]
      have hsf : db.memberStats.find? (fun s2 => s2.memberId == d.memberId) = some s := hfs
      rw [hsf, Option.map_some']
    · intro hfs
      refine ⟨seededStats d, ?_, rfl, rfl, rfl⟩
      show List.find? _ _ = _
      have hms : (approveResultDb db i adm nts now d).memberStats =
          seededStats d :: db.memberStats := by
        simp only [approveResultDb, hfs]
      rw [hms]
      simp [List.find?, seededStats]
  · have h1 : ¬d.status = PaymentStatus.REJECTED := by simp [hc]
    have h2 : ¬d.status = PaymentStatus.APPROVED := by simp [hc]
    have hok : rejectDepositRequest db i r adm = .ok (rejectResultDb db i r adm d) := by
      simp only [rejectDepositRequest, hd, if_neg h1, if_neg h2]
    refine ⟨rejectResultDb db i r adm d, hok,
      ⟨{ d with status := PaymentStatus.REJECTED, rejectionReason := some r }, ?_, rfl⟩⟩
    show List.find? _ (List.map _ db.deposits) = _
    rw [find?_map_update db.deposits Deposit.id i
      (fun _ => { d with status := PaymentStatus.REJECTED, rejectionReason := some r })
      (fun _ _ => hdi), hdf, Option.map_some']

/-- C4: for every member and target month at most one deposit exists.  Under
the creation preconditions (active user, valid method details, no deposit yet
for the pair) the create succeeds, and then any second create attempt for the
same (member, month) pair — by any active user resolving to the same member,
with any dto carrying the same target month instant, in either role of the two
attempts since both are arbitrary — fails with the duplicate-month conflict
error and, the error being thrown before any write, persists nothing.
Moreover creation preserves pairwise uniqueness of (member, month) over the
deposit table, mirroring the `Deposit_memberId_depositMonth_key` unique
index. -/
theorem createDeposit_month_unique (db : DB) (dto : CreateDepositDto)
    (userId newId : Nat) (now : JsDate) (u : UserRec)
    (hu : findUser db userId = some u) (ha : u.status = MemberStatus.ACTIVE)
    (hv : validatePaymentMethodDetails dto.paymentMethod dto.hasHandToHandDetails
        dto.hasMobilePaymentDetails dto.hasBankTransferDetails = .ok ())
    (hnodup : ∀ d2 ∈ db.deposits,
      ¬(d2.memberId = u.memberId ∧ d2.depositMonth.toMs = dto.depositMonth.toMs)) :
    ∃ db', createDeposit db dto userId newId now = .ok db' ∧
      (∀ (dto2 : CreateDepositDto) (userId2 newId2 : Nat) (now2 : JsDate)
          (u2 : UserRec), findUser db' userId2 = some u2 →
        u2.status = MemberStatus.ACTIVE → u2.memberId = u.memberId →
        dto2.depositMonth.toMs = dto.depositMonth.toMs →
        createDeposit db' dto2 userId2 newId2 now2 =
          .error (.badRequest "A deposit for this month already exists")) ∧
      (db.deposits.Pairwise (fun a b =>
          ¬(a.memberId = b.memberId ∧ a.depositMonth.toMs = b.depositMonth.toMs)) →
        db'.deposits.Pairwise (fun a b =>
          ¬(a.memberId = b.memberId ∧ a.depositMonth.toMs = b.depositMonth.toMs))) := by
  have hvu : validateUserStatus db userId = .ok u := by
    simp only [validateUserStatus, hu, if_pos ha]
  have hbf : db.deposits.any (fun d2 =>
      d2.memberId == u.memberId && d2.depositMonth.toMs == dto.depositMonth.toMs) = false := by
    rw [List.any_eq_false]
    intro x hx
    simp only [Bool.and_eq_true, beq_iff_eq, not_and]
    intro hx1 hx2
    exact hnodup x hx ⟨hx1, hx2⟩
  have hok : createDeposit db dto userId newId now =
      .ok (createResultDb db dto u newId now) := by
    simp only [createDeposit, hvu, hu, hbf, Bool.false_eq_true, if_false, hv]
  refine ⟨createResultDb db dto u newId now, hok, ?_, ?_⟩
  · intro dto2 userId2 newId2 now2 u2 h2u h2a h2m h2month
    have hvu2 : validateUserStatus (createResultDb db dto u newId now) userId2 =
        .ok u2 := by
      simp only [validateUserStatus, h2u, if_pos h2a]
    have hdup : (createResultDb db dto u newId now).deposits.any (fun d2 =>
        d2.memberId == u2.memberId &&
          d2.depositMonth.toMs == dto2.depositMonth.toMs) = true := by
      show (newDepositRow dto u newId now :: db.deposits).any _ = true
      have hhead : ((newDepositRow dto u newId now).memberId == u2.memberId &&
          (newDepositRow dto u newId now).depositMonth.toMs ==
            dto2.depositMonth.toMs) = true := by
        simp [newDepositRow, h2m, h2month]
      simp [List.any_cons, hhead]
    simp only [createDeposit, hvu2, h2u, hdup, if_true]
  · intro hpw
    show List.Pairwise _ (newDepositRow dto u newId now :: db.deposits)
    rw [List.pairwise_cons]
    refine ⟨?_, hpw⟩
    intro b hb hcon
    have hb1 : u.memberId = b.memberId := hcon.1
    have hb2 : dto.depositMonth.toMs = b.depositMonth.toMs := hcon.2
    exact hnodup b hb ⟨hb1.symm, hb2.symm⟩

/-- Sample database with the sample user and no deposits. -/
def sampleDbEmpty : DB := { sampleDb with deposits := [] }

/-- Sample creation dto: base 1000 for the sample month paid on day 10 by
bKash. -/
def sampleCreateDto : CreateDepositDto :=
  { depositMonth := sampleMonth, paymentDate := some samplePay,
    depositAmount := 1000, paymentMethod := .BKASH,
    hasHandToHandDetails := false, hasMobilePaymentDetails := true,
    hasBankTransferDetails := false, referencePerson := none,
    proofImage := none, notes := none }

theorem createDeposit_month_unique_witness :
    findUser sampleDbEmpty 5 = some ⟨7, .ACTIVE⟩ ∧
    (⟨7, .ACTIVE⟩ : UserRec).status = MemberStatus.ACTIVE ∧
    validatePaymentMethodDetails sampleCreateDto.paymentMethod
      sampleCreateDto.hasHandToHandDetails sampleCreateDto.hasMobilePaymentDetails
      sampleCreateDto.hasBankTransferDetails = .ok () ∧
    (∀ d2 ∈ sampleDbEmpty.deposits,
      ¬(d2.memberId = (⟨7, .ACTIVE⟩ : UserRec).memberId ∧
        d2.depositMonth.toMs = sampleCreateDto.depositMonth.toMs)) ∧
    ∃ db', createDeposit sampleDbEmpty sampleCreateDto 5 1 samplePay = .ok db' :=
  ⟨rfl, rfl, rfl, by decide,
   (createDeposit_month_unique sampleDbEmpty sampleCreateDto 5 1 samplePay
      ⟨7, .ACTIVE⟩ rfl rfl rfl (by decide)).elim (fun db' hh => ⟨db', hh.1⟩)⟩

/-- Sample update dto changing nothing. -/
def sampleUpdateDto : UpdateDepositDto :=
  { depositAmount := none, paymentDate := none, paymentMethod := none,
    hasHandToHandDetails := false, hasMobilePaymentDetails := false,
    hasBankTransferDetails := false, referencePerson := none,
    proofImage := none, notes := none }

/-- C6: once a deposit has left PENDING, the owner's update and the owner's
delete both fail with an error (the error aborting before any write, the
deposit and its detail record stay unchanged); conversely update and delete
can return success only while the deposit is PENDING. -/
theorem update_delete_pending_only (db : DB) (i userId : Nat)
    (dto : UpdateDepositDto) (d : Deposit) (hd : findDeposit db i = some d) :
    (∀ u, findUser db userId = some u → d.memberId = u.memberId →
      d.status ≠ PaymentStatus.PENDING →
      updateDeposit db i dto userId =
        .error (.badRequest "Cannot update this deposit. Only PENDING deposits can be updated.") ∧
      deleteDeposit db i userId =
        .error (.badRequest "Cannot delete this deposit. Only PENDING deposits can be deleted.")) ∧
    (∀ db2, updateDeposit db i dto userId = .ok db2 →
      d.status = PaymentStatus.PENDING) ∧
    (∀ db2, deleteDeposit db i userId = .ok db2 →
      d.status = PaymentStatus.PENDING) := by
  refine ⟨?_, ?_, ?_⟩
  · intro u hu hm hs
    have hvo : validateDepositOwnership db i userId = .ok () := by
      simp only [validateDepositOwnership, hu, hd, if_pos hm]
    constructor
    · simp only [updateDeposit, hvo, hd, if_pos hs]
    · simp only [deleteDeposit, hvo, hd, if_pos hs]
  · intro db2 h
    unfold updateDeposit at h
    cases hvo : validateDepositOwnership db i userId with
    | error e =>
      rw [hvo] at h
      exact absurd h (by simp)
    | ok uu =>
      rw [hvo] at h
      by_cases hp : d.status = PaymentStatus.PENDING
      · exact hp
      · rw [show (uu : Unit) = () from rfl] at h
        simp only [hd] at h
        rw [if_pos hp] at h
        exact absurd h (by simp)
  · intro db2 h
    unfold deleteDeposit at h
    cases hvo : validateDepositOwnership db i userId with
    | error e =>
      rw [hvo] at h
      exact absurd h (by simp)
    | ok uu =>
      rw [hvo] at h
      by_cases hp : d.status = PaymentStatus.PENDING
      · exact hp
      · rw [show (uu : Unit) = () from rfl] at h
        simp only [hd] at h
        rw [if_pos hp] at h
        exact absurd h (by simp)

theorem update_delete_pending_only_witness :
    findDeposit sampleDbApproved 1 = some sampleApproved ∧
    findUser sampleDbApproved 5 = some ⟨7, .ACTIVE⟩ ∧
    sampleApproved.memberId = (⟨7, .ACTIVE⟩ : UserRec).memberId ∧
    sampleApproved.status ≠ PaymentStatus.PENDING ∧
    updateDeposit sampleDbApproved 1 sampleUpdateDto 5 =
      .error (.badRequest "Cannot update this deposit. Only PENDING deposits can be updated.") ∧
    deleteDeposit sampleDbApproved 1 5 =
      .error (.badRequest "Cannot delete this deposit. Only PENDING deposits can be deleted.") :=
  ⟨rfl, rfl, rfl, by decide,
   ((update_delete_pending_only sampleDbApproved 1 5 sampleUpdateDto
      sampleApproved rfl).1 ⟨7, .ACTIVE⟩ rfl rfl (by decide)).1,
   ((update_delete_pending_only sampleDbApproved 1 5 sampleUpdateDto
      sampleApproved rfl).1 ⟨7, .ACTIVE⟩ rfl rfl (by decide)).2⟩

/-- C7: the ledger invariant `totalContribution = totalDeposited +
totalPenalties` holds in every state reachable by approvals: given that every
deposit row satisfies `totalAmount = depositAmount + penalty` (as established
at create/update time) and that every existing ledger row satisfies the
invariant, any successful approval — whether it increments an existing ledger
row or creates a freshly seeded one — yields a state where every ledger row
still satisfies the invariant. -/
theorem ledger_invariant_preserved (db db' : DB) (i adm : Nat)
    (nts : Option String) (now : Int)
    (hdep : depositsOk db) (hled : ledgerOk db)
    (h : approveDepositRequest db i adm nts now = .ok db') : ledgerOk db' := by
  unfold approveDepositRequest at h
  cases hd : findDeposit db i with
  | none =>
    rw [hd] at h
    exact absurd h (by simp)
  | some d =>
    rw [hd] at h
    by_cases h1 : d.status = PaymentStatus.APPROVED
    · simp only [if_pos h1] at h
      exact absurd h (by simp)
    · by_cases h2 : d.status = PaymentStatus.REJECTED
      · simp only [if_neg h1, if_pos h2] at h
        exact absurd h (by simp)
      · simp only [if_neg h1, if_neg h2] at h
        have hdb : db' = approveResultDb db i adm nts now d := by
          injection h with h'
          exact h'.symm
        subst hdb
        have hmem : d ∈ db.deposits := List.mem_of_find?_eq_some hd
        have hda : d.totalAmount = d.depositAmount + d.penalty := hdep d hmem
        intro s' hs'
        cases hfs : findStats db d.memberId with
        | some s0 =>
          have hms : (approveResultDb db i adm nts now d).memberStats =
              db.memberStats.map (fun s2 =>
                if s2.memberId == d.memberId then approvedStats s2 d else s2) := by
            simp only [approveResultDb, hfs]
          rw [hms] at hs'
          obtain ⟨s1, hmem1, rfl⟩ := List.mem_map.mp hs'
          by_cases hm : (s1.memberId == d.memberId) = true
          · rw [if_pos hm]
            have hinv := hled s1 hmem1
            simp only [approvedStats]
            omega
          · rw [if_neg hm]
            exact hled s1 hmem1
        | none =>
          have hms : (approveResultDb db i adm nts now d).memberStats =
              seededStats d :: db.memberStats := by
            simp only [approveResultDb, hfs]
          rw [hms] at hs'
          rcases List.mem_cons.mp hs' with rfl | hmem1
          · simp only [seededStats]
            omega
          · exact hled s' hmem1

theorem ledger_invariant_preserved_witness :
    depositsOk sampleDb ∧ ledgerOk sampleDb ∧
    approveDepositRequest sampleDb 1 2 none 0 =
      .ok (approveResultDb sampleDb 1 2 none 0 sampleDeposit) ∧
    ledgerOk (approveResultDb sampleDb 1 2 none 0 sampleDeposit) :=
  ⟨by unfold depositsOk; decide, by unfold ledgerOk; decide, rfl,
   ledger_invariant_preserved sampleDb
     (approveResultDb sampleDb 1 2 none 0 sampleDeposit) 1 2 none 0
     (by unfold depositsOk; decide) (by unfold ledgerOk; decide) rfl⟩

theorem cancelled_approve_reject_witness :
    findDeposit sampleDbCancelled 1 = some sampleCancelled ∧
    sampleCancelled.status = PaymentStatus.CANCELLED ∧
    (∃ db', approveDepositRequest sampleDbCancelled 1 2 none 0 = .ok db') ∧
    (∃ db'', rejectDepositRequest sampleDbCancelled 1 "reason" 2 = .ok db'') :=
  ⟨rfl, rfl,
   (cancelled_approve_reject sampleDbCancelled 1 2 none 0 "reason" sampleCancelled
      rfl rfl).1.elim (fun db' hh => ⟨db', hh.1⟩),
   (cancelled_approve_reject sampleDbCancelled 1 2 none 0 "reason" sampleCancelled
      rfl rfl).2.elim (fun db'' hh => ⟨db'', hh.1⟩)⟩

end Money
